import Mathlib

/-!
# terraform-provider-quanianitis: provider configuration and the mail resource

A shallow embedding of `internal/provider/provider.go` and
`internal/provider/mail_resource.go`.

Conventions of the embedding.

* Go strings that travel through Terraform are valid UTF-8, so a Go string is a
  Lean `String` (a sequence of Unicode scalar values) and a request body is the
  list of its characters.
* A callback `f(ctx, req, resp)` mutates `resp` in place; here it is a function
  from the request and the incoming response to the outgoing response.
* The Terraform plugin framework and the Go standard library are not part of the
  repository.  What they return is either an input of the embedding (the
  diagnostics of `Get`/`Set`, the base transport, URL parsing, the quoting used
  in error texts) or a definition written from their documented behaviour
  (`types.String`, `diag.Diagnostics`, `http.Header`, `json.Marshal` on a
  `map[string]string`, `Time.Format`).
* The framework converts between a schema object and a struct only when the
  `tfsdk` tags of the struct and the attributes of the schema are the same
  fields.  The provider configuration passes this test.  The mail resource does
  not: its struct has the tag `id`, its schema no such attribute, so every
  `Get` and `Set` on its plan and state reports a conversion error
  (`mailConversionDiags`).  Statements about runs of the program take the
  diagnostics of `Get` and `Set` from this rule.
-/

namespace Quanianitis

set_option linter.dupNamespace false

/-! ## Framework values: `types.String` -/

/-- The framework string value `types.String`: null, unknown, or a known string. -/
inductive TfString where
  | null : TfString
  | unknown : TfString
  | value (s : String) : TfString
  deriving DecidableEq, Repr

namespace TfString

/-- `types.StringValue(s)`. -/
def StringValue (s : String) : TfString := TfString.value s

/-- `IsNull()`. -/
def IsNull : TfString → Bool
  | TfString.null => true
  | _ => false

/-- `IsUnknown()`. -/
def IsUnknown : TfString → Bool
  | TfString.unknown => true
  | _ => false

/-- `ValueString()`: the known value, or the empty string for null and unknown. -/
def ValueString : TfString → String
  | TfString.value s => s
  | _ => ""

end TfString

/-! ## Framework values: `diag.Diagnostics` -/

/-- Severity of a diagnostic. -/
inductive Severity where
  | error : Severity
  | warning : Severity
  deriving DecidableEq, Repr

/-- One diagnostic: severity, optional attribute path (`path.Root(name)`), summary, detail. -/
structure Diagnostic where
  severity : Severity
  path : Option String
  summary : String
  detail : String
  deriving DecidableEq, Repr

/-- The list type `diag.Diagnostics`. -/
abbrev Diagnostics := List Diagnostic

namespace Diagnostics

/-- `HasError()`: some diagnostic has error severity. -/
def HasError (ds : Diagnostics) : Bool :=
  ds.any (fun d => decide (d.severity = Severity.error))

/-- Appending one diagnostic skips it when an equal one is already present. -/
def appendOne (ds : Diagnostics) (d : Diagnostic) : Diagnostics :=
  if d ∈ ds then ds else ds ++ [d]

/-- `Append(in...)`: appends the diagnostics one by one, skipping duplicates. -/
def Append (ds : Diagnostics) (more : Diagnostics) : Diagnostics :=
  more.foldl appendOne ds

/-- `AddError(summary, detail)`. -/
def AddError (ds : Diagnostics) (summary detail : String) : Diagnostics :=
  appendOne ds ⟨Severity.error, none, summary, detail⟩

/-- `AddAttributeError(path.Root(attr), summary, detail)`. -/
def AddAttributeError (ds : Diagnostics) (attr summary detail : String) : Diagnostics :=
  appendOne ds ⟨Severity.error, some attr, summary, detail⟩

end Diagnostics

/-- Framework data (`tfsdk.Config`, `tfsdk.Plan`, prior `tfsdk.State`) read with
`Get(ctx, &data)`: the content, which `Get` puts into the struct, and the
diagnostics `Get` returns; when these hold an error the callbacks return before
they use the struct. -/
structure TfData (α : Type) where
  value : α
  getDiags : Diagnostics

/-- `Get(ctx, &data)`: the decoded struct and the diagnostics of the decoding. -/
def TfData.Get {α : Type} (d : TfData α) : α × Diagnostics := (d.value, d.getDiags)

/-! ## HTTP: headers, requests, responses, transports -/

/-- The map `http.Header` (`map[string][]string`) as an association list with
one entry per key. -/
abbrev Header := List (String × List String)

namespace Header

/-- The values stored under a key (`h[key]`, nil when the key is absent). -/
def values : Header → String → List String
  | [], _ => []
  | (k, vs) :: rest, key => if k = key then vs else values rest key

/-- `h[key] = vs`: replaces the entry of the key, or inserts it. -/
def put : Header → String → List String → Header
  | [], key, vs => [(key, vs)]
  | (k, old) :: rest, key, vs =>
    if k = key then (k, vs) :: rest else (k, old) :: put rest key vs

/-- `Set(key, value)` for a key already in canonical form: `h[key] = []string{value}`. -/
def Set (h : Header) (key value : String) : Header := put h key [value]

/-- `Add(key, value)` for a key already in canonical form:
`h[key] = append(h[key], value)`. -/
def Add (h : Header) (key value : String) : Header := put h key (values h key ++ [value])

end Header

/-- The parts of `http.Request` the provider touches. -/
structure HttpRequest where
  Method : String
  URL : String
  Header : Header
  Body : List Char
  deriving DecidableEq, Repr

/-- The part of `http.Response` the provider reads. -/
structure HttpResponse where
  StatusCode : Int
  deriving DecidableEq, Repr

/-- An `http.RoundTripper`: a request yields a response or an error (its text). -/
abbrev RoundTripper := HttpRequest → Except String HttpResponse

/-- The struct `transportWithAuth`. -/
structure transportWithAuth where
  token : String
  base : RoundTripper

/-- What a round trip did: the requests handed to the base transport, in order,
and the returned response or error. -/
structure RoundTripOutcome where
  handed : List HttpRequest
  result : Except String HttpResponse

/-- `transportWithAuth.RoundTrip`: adds the `Authorization` header and delegates
to the base transport. -/
def transportWithAuth.RoundTrip (t : transportWithAuth) (req : HttpRequest) : RoundTripOutcome :=
  let req1 : HttpRequest :=
    { req with Header := Header.Add req.Header "Authorization" ("Bearer " ++ t.token) }
  { handed := [req1], result := t.base req1 }

/-- The struct `http.Client` as the provider builds it: only `Transport` is set. -/
structure HttpClient where
  Transport : transportWithAuth

/-- The struct `Client` of the provider. -/
structure Client where
  Endpoint : String
  Client : HttpClient

/-! ## `provider.go`: `quanianitisProvider.Configure` -/

/-- The struct `quanianitisProviderModel`. -/
structure quanianitisProviderModel where
  Endpoint : TfString
  Gcloud_identity_token : TfString
  deriving DecidableEq, Repr

/-- The request `provider.ConfigureRequest`. -/
structure ConfigureRequest where
  Config : TfData quanianitisProviderModel

/-- The response `provider.ConfigureResponse`. -/
structure ConfigureResponse where
  Diagnostics : Diagnostics
  DataSourceData : Option HttpClient
  ResourceData : Option Client

/-- The process environment: a variable is unset (`none`) or has a value. -/
abbrev Environ := String → Option String

/-- `os.Getenv`: the value of the variable, the empty string when it is unset. -/
def Getenv (env : Environ) (key : String) : String := (env key).getD ""

/-- The endpoint literal of `Configure`. -/
def defaultEndpoint : String :=
  "https://asia-southeast1-personal-quanianitis.cloudfunctions.net/sendgrid"

/-- `quanianitisProvider.Configure`, with `http.DefaultTransport` and the process
environment as inputs. -/
def Configure (DefaultTransport : RoundTripper) (env : Environ)
    (req : ConfigureRequest) (resp : ConfigureResponse) : ConfigureResponse :=
  let (config, getDiags) := req.Config.Get
  let resp := { resp with Diagnostics := resp.Diagnostics.Append getDiags }
  if resp.Diagnostics.HasError then resp else
  let resp :=
    if config.Endpoint.IsUnknown then
      { resp with
        Diagnostics :=
          resp.Diagnostics.AddAttributeError "endpoint" "Summary (Endpoint)" "Detail (Endpoint)" }
    else resp
  let resp :=
    if config.Gcloud_identity_token.IsUnknown then
      { resp with
        Diagnostics :=
          resp.Diagnostics.AddAttributeError "gcloud_identity_token"
            "Summary (Gcloud_identity_token)" "Detail (Gcloud_identity_token)" }
    else resp
  if resp.Diagnostics.HasError then resp else
  let endpoint := defaultEndpoint
  let gcloud_identity_token := Getenv env "GCLOUD_IDENTITY_TOKEN"
  let config :=
    if !config.Endpoint.IsNull then
      { config with Endpoint := TfString.StringValue endpoint }
    else config
  let config :=
    if !config.Gcloud_identity_token.IsNull then
      { config with Gcloud_identity_token := TfString.StringValue gcloud_identity_token }
    else config
  let resp :=
    if gcloud_identity_token = "" then
      { resp with
        Diagnostics :=
          resp.Diagnostics.AddAttributeError "gcloud_identity_token"
            "Summary (Gcloud_identity_token)" "Detail (Gcloud_identity_token)" }
    else resp
  if resp.Diagnostics.HasError then resp else
  let client : HttpClient :=
    { Transport := { token := gcloud_identity_token, base := DefaultTransport } }
  { resp with
    DataSourceData := some client
    ResourceData := some { Endpoint := config.Endpoint.ValueString, Client := client } }

/-! ## `encoding/json`: `json.Marshal` on a `map[string]string` -/

/-- The table `hex` of `encoding/json`: the lower-case hexadecimal digit of a value below 16. -/
def hexDigit (n : Nat) : Char :=
  if n < 10 then Char.ofNat (48 + n) else Char.ofNat (87 + n)

/-- The table `htmlSafeSet` of `encoding/json`: the ASCII characters written
without escaping, namely those from the space on except the double quote, the
ampersand, the angle brackets and the backslash. -/
def htmlSafe (c : Char) : Bool :=
  decide (32 ≤ c.toNat) && decide (c.toNat < 128) &&
    !(c = '"' || c = '&' || c = '<' || c = '>' || c = '\\')

/-- What `appendString` of `encoding/json` (with HTML escaping, as `json.Marshal`
uses it) writes for one character of a valid UTF-8 string. -/
def escapeChar (c : Char) : List Char :=
  if c.toNat < 128 then
    if htmlSafe c then [c]
    else if c = '\\' ∨ c = '"' then ['\\', c]
    else if c = Char.ofNat 8 then ['\\', 'b']
    else if c = Char.ofNat 12 then ['\\', 'f']
    else if c = '\n' then ['\\', 'n']
    else if c = '\r' then ['\\', 'r']
    else if c = '\t' then ['\\', 't']
    else ['\\', 'u', '0', '0', hexDigit (c.toNat / 16), hexDigit (c.toNat % 16)]
  else if c = Char.ofNat 0x2028 ∨ c = Char.ofNat 0x2029 then
    ['\\', 'u', '2', '0', '2', hexDigit (c.toNat % 16)]
  else [c]

/-- The escaped contents of a JSON string literal, without the quotes. -/
def escapeChars : List Char → List Char
  | [] => []
  | c :: cs => escapeChar c ++ escapeChars cs

/-- `appendString`: a JSON string literal for a Go string. -/
def appendString (s : String) : List Char :=
  '"' :: (escapeChars s.data ++ ['"'])

/-- Byte-wise order of Go strings, the order in which `json.Marshal` sorts map
keys; on valid UTF-8 it is the lexicographic order of the code points. -/
def keyLess (a b : String) : Bool := decide (a.data < b.data)

/-- Inserts a map entry into a list of entries sorted by key. -/
def insertEntry (e : String × String) : List (String × String) → List (String × String)
  | [] => [e]
  | f :: rest => if keyLess f.1 e.1 then f :: insertEntry e rest else e :: f :: rest

/-- The entries of a map sorted by key. -/
def sortedEntries : List (String × String) → List (String × String)
  | [] => []
  | e :: rest => insertEntry e (sortedEntries rest)

/-- The members of a JSON object, comma separated: `"key":"value"`. -/
def encodeMembers : List (String × String) → List Char
  | [] => []
  | [e] => appendString e.1 ++ ':' :: appendString e.2
  | e :: f :: rest =>
    appendString e.1 ++ ':' :: (appendString e.2 ++ ',' :: encodeMembers (f :: rest))

/-- `json.Marshal(m)` for a `map[string]string` given by its entries (distinct
keys): a JSON object with the keys in sorted order.  It returns no error for
this type. -/
def jsonMarshal (m : List (String × String)) : Except String (List Char) :=
  Except.ok ('{' :: (encodeMembers (sortedEntries m) ++ ['}']))

/-! ## `time`: `Time.Format(time.RFC3339)` -/

/-- What `time.Now()` yields, as `Format` sees it: the calendar date and clock
of the instant in its location and the offset of the zone in seconds east of UTC. -/
structure Time where
  year : Int
  month : Nat
  day : Nat
  hour : Nat
  minute : Nat
  second : Nat
  offset : Int
  deriving DecidableEq, Repr

/-- `appendInt` of package `time`: a sign for a negative number, then the decimal
digits of the magnitude, padded with zeros on the left up to the width. -/
def appendInt (x : Int) (width : Nat) : List Char :=
  let u := x.natAbs
  let sign : List Char := if x < 0 then ['-'] else []
  if width = 2 ∧ u < 100 then
    sign ++ [Nat.digitChar (u / 10), Nat.digitChar (u % 10)]
  else if width = 4 ∧ u < 10000 then
    sign ++ [Nat.digitChar (u / 1000), Nat.digitChar (u / 100 % 10),
      Nat.digitChar (u / 10 % 10), Nat.digitChar (u % 10)]
  else
    let ds := Nat.toDigits 10 u
    sign ++ (List.replicate (width - ds.length) '0' ++ ds)

/-- The zone of layout element `Z07:00`: `Z` for offset zero, otherwise the sign
and the hours and minutes of the offset. -/
def appendZone (offset : Int) : List Char :=
  if offset = 0 then ['Z']
  else
    let zone := Int.tdiv offset 60
    let sign : Char := if zone < 0 then '-' else '+'
    let zone := if zone < 0 then -zone else zone
    sign :: (appendInt (Int.tdiv zone 60) 2 ++ ':' :: appendInt (Int.tmod zone 60) 2)

/-- `t.Format(time.RFC3339)`, layout `2006-01-02T15:04:05Z07:00`. -/
def Time.FormatRFC3339 (t : Time) : String :=
  String.mk (appendInt t.year 4 ++ '-' :: (appendInt t.month 2 ++ '-' :: (appendInt t.day 2 ++
    'T' :: (appendInt t.hour 2 ++ ':' :: (appendInt t.minute 2 ++ ':' ::
      (appendInt t.second 2 ++ appendZone t.offset))))))

/-- The ranges of the fields of a Go time whose year has four digits: month
1 to 12, day 1 to 31, hour below 24, minute and second below 60, and a zone
offset of less than a day. -/
def Time.isCivil (t : Time) : Bool :=
  decide (0 ≤ t.year) && decide (t.year ≤ 9999) &&
    decide (1 ≤ t.month) && decide (t.month ≤ 12) &&
    decide (1 ≤ t.day) && decide (t.day ≤ 31) &&
    decide (t.hour < 24) && decide (t.minute < 60) && decide (t.second < 60) &&
    decide (t.offset.natAbs < 86400)

/-- The zone of an RFC 3339 timestamp: `Z`, or a sign, two digits, a colon and
two digits. -/
def isZone : List Char → Bool
  | [z] => z = 'Z'
  | [sg, z1, z2, e, z3, z4] =>
    (sg = '+' || sg = '-') && z1.isDigit && z2.isDigit && e = ':' && z3.isDigit && z4.isDigit
  | _ => false

/-- The shape of an RFC 3339 timestamp without fraction of a second:
`dddd-dd-ddTdd:dd:dd` followed by a zone, each `d` a decimal digit. -/
def isRFC3339 : List Char → Bool
  | y1 :: y2 :: y3 :: y4 :: a :: m1 :: m2 :: b :: d1 :: d2 :: t :: h1 :: h2 :: c :: n1 :: n2 ::
      d :: s1 :: s2 :: zone =>
    y1.isDigit && y2.isDigit && y3.isDigit && y4.isDigit && a = '-' &&
      m1.isDigit && m2.isDigit && b = '-' && d1.isDigit && d2.isDigit && t = 'T' &&
      h1.isDigit && h2.isDigit && c = ':' && n1.isDigit && n2.isDigit && d = ':' &&
      s1.isDigit && s2.isDigit && isZone zone
  | _ => false

/-! ## `net/http`: building and sending a request -/

/-- Standard-library behaviour that `Create` depends on and the embedding takes
as given: `parseURL u` is the error of `url.Parse(u)` (`none` when the URL
parses); `quoteURL u` is the quoted URL as it appears in the text of a
`*url.Error`. -/
structure NetLib where
  parseURL : String → Option String
  quoteURL : String → String

/-- `http.NewRequest(method, url, body)` for a valid method such as `POST`: a
request with an empty header, or the error of parsing the URL. -/
def NewRequest (lib : NetLib) (method url : String) (body : List Char) :
    Except String HttpRequest :=
  match lib.parseURL url with
  | some e => Except.error e
  | none => Except.ok { Method := method, URL := url, Header := [], Body := body }

/-- The operation name of a `*url.Error`: the method with its first letter kept
and the rest in lower case (`Get` for the empty method). -/
def urlErrorOp (method : String) : String :=
  match method.data with
  | [] => "Get"
  | c :: cs => String.mk (c :: cs.map Char.toLower)

/-- `http.Client.Do`: one round trip through the transport of the client (the
responses of the embedding carry no `Location` header, so no redirect is
followed); an error of the transport comes back wrapped in a `*url.Error`,
whose text is `Op "URL": cause`. -/
def HttpClient.Do (lib : NetLib) (c : HttpClient) (req : HttpRequest) : RoundTripOutcome :=
  let out := c.Transport.RoundTrip req
  match out.result with
  | Except.error e =>
    { handed := out.handed
      result := Except.error (urlErrorOp req.Method ++ " " ++ lib.quoteURL req.URL ++ ": " ++ e) }
  | Except.ok r => { handed := out.handed, result := Except.ok r }

/-! ## `mail_resource.go` -/

/-- The struct `QuanianitisMailResourceModel`. -/
structure QuanianitisMailResourceModel where
  Id : TfString
  From : TfString
  To : TfString
  Subject : TfString
  Content : TfString
  deriving DecidableEq, Repr

/-- The struct `QuanianitisMailResource`; `client` is a pointer, nil (`none`)
until the resource is configured. -/
structure QuanianitisMailResource where
  client : Option Client

/-- The state `tfsdk.State` of a response: the stored record (`none` when there
is none) and the diagnostics that `Set` reports for a given record. -/
structure TfState where
  Raw : Option QuanianitisMailResourceModel
  setDiags : QuanianitisMailResourceModel → Diagnostics

/-- `State.Set(ctx, &data)`: stores the record unless the conversion reports an
error, and returns the diagnostics of the conversion. -/
def TfState.Set (s : TfState) (data : QuanianitisMailResourceModel) : TfState × Diagnostics :=
  if Diagnostics.HasError (s.setDiags data) then (s, s.setDiags data)
  else ({ s with Raw := some data }, s.setDiags data)

/-- The request `resource.CreateRequest`. -/
structure CreateRequest where
  Plan : TfData QuanianitisMailResourceModel

/-- The request `resource.ReadRequest`. -/
structure ReadRequest where
  State : TfData QuanianitisMailResourceModel

/-- The request `resource.UpdateRequest`. -/
structure UpdateRequest where
  Plan : TfData QuanianitisMailResourceModel
  State : TfData QuanianitisMailResourceModel

/-- The request `resource.DeleteRequest`. -/
structure DeleteRequest where
  State : TfData QuanianitisMailResourceModel

/-- The responses `resource.CreateResponse`, `ReadResponse`, `UpdateResponse`
and `DeleteResponse`: the state and the diagnostics. -/
structure Response where
  State : TfState
  Diagnostics : Diagnostics

/-- What a resource operation did: the response it leaves and the requests
that reached the base transport, in order. -/
structure Outcome where
  resp : Response
  sent : List HttpRequest

/-- The map literal `mail` of `Create`, in source order. -/
def mailMap (data : QuanianitisMailResourceModel) : List (String × String) :=
  [("from_address", data.From.ValueString),
   ("to_address", data.To.ValueString),
   ("subject", data.Subject.ValueString),
   ("plain_text_content", data.Content.ValueString)]

/-- `QuanianitisMailResource.Create`, with the current time as an input.  The
result is `none` when the call panics on a nil `r.client`.  Since `json.Marshal`
returns no error for a `map[string]string`, the detail of the marshalling
diagnostic, which formats the error as a surplus argument, is never produced;
the deferred close of the request body changes nothing that is modelled. -/
def Create (lib : NetLib) (now : Time) (r : QuanianitisMailResource)
    (req : CreateRequest) (resp : Response) : Option Outcome :=
  let (data, getDiags) := req.Plan.Get
  let resp := { resp with Diagnostics := resp.Diagnostics.Append getDiags }
  if resp.Diagnostics.HasError then some { resp := resp, sent := [] } else
  let data := { data with Id := TfString.StringValue now.FormatRFC3339 }
  let mail := mailMap data
  match jsonMarshal mail with
  | Except.error err =>
    some
      { resp :=
          { resp with
            Diagnostics :=
              resp.Diagnostics.AddError
                "Error marshaling and transforming submitted data to a Mail-compatible format"
                ("Unable to marshal submitted data to Mail-compatbile format%!(EXTRA " ++ err ++ ")") }
        sent := [] }
  | Except.ok mailBytes =>
    match r.client with
    | none => none
    | some client =>
      let functionURL := client.Endpoint
      match NewRequest lib "POST" functionURL mailBytes with
      | Except.error _ =>
        -- `resp.Diagnostics.HasError()` is evaluated and its result dropped
        some { resp := resp, sent := [] }
      | Except.ok http =>
        let http := { http with Header := Header.Set http.Header "Content-Type" "application/json" }
        let out := client.Client.Do lib http
        match out.result with
        | Except.error err =>
          some
            { resp :=
                { resp with
                  Diagnostics :=
                    resp.Diagnostics.AddError "Error forwarding mail"
                      ("Unable to forward mail: " ++ err) }
              sent := out.handed }
        | Except.ok httpResponse =>
          if httpResponse.StatusCode ≠ httpResponse.StatusCode then
            some
              { resp :=
                  { resp with
                    Diagnostics :=
                      resp.Diagnostics.AddError "Error response from Cloud Function"
                        ("Error returned status code " ++ toString httpResponse.StatusCode) }
                sent := out.handed }
          else
            let (state, setDiags) := resp.State.Set data
            some
              { resp := { State := state, Diagnostics := resp.Diagnostics.Append setDiags }
                sent := out.handed }

/-- `QuanianitisMailResource.Read`. -/
def Read (req : ReadRequest) (resp : Response) : Outcome :=
  let (data, getDiags) := req.State.Get
  let resp := { resp with Diagnostics := resp.Diagnostics.Append getDiags }
  if resp.Diagnostics.HasError then { resp := resp, sent := [] } else
  let (state, setDiags) := resp.State.Set data
  { resp := { State := state, Diagnostics := resp.Diagnostics.Append setDiags }, sent := [] }

/-- `QuanianitisMailResource.Update`. -/
def Update (req : UpdateRequest) (resp : Response) : Outcome :=
  let (data, getDiags) := req.Plan.Get
  let resp := { resp with Diagnostics := resp.Diagnostics.Append getDiags }
  if resp.Diagnostics.HasError then { resp := resp, sent := [] } else
  let (state, setDiags) := resp.State.Set data
  { resp := { State := state, Diagnostics := resp.Diagnostics.Append setDiags }, sent := [] }

/-- `QuanianitisMailResource.Delete`. -/
def Delete (req : DeleteRequest) (resp : Response) : Outcome :=
  let (_, getDiags) := req.State.Get
  let resp := { resp with Diagnostics := resp.Diagnostics.Append getDiags }
  if resp.Diagnostics.HasError then { resp := resp, sent := [] } else
  { resp := resp, sent := [] }

/-! ## The declared schemas and the conversion between schema and struct -/

/-- The parts of `schema.StringAttribute` the provider sets. -/
structure StringAttribute where
  MarkdownDescription : String
  Required : Bool
  Optional : Bool
  Sensitive : Bool
  deriving DecidableEq, Repr

/-- The parts of `schema.Schema` the provider sets: a description and the
attributes by name. -/
structure TfSchema where
  MarkdownDescription : String
  Attributes : List (String × StringAttribute)
  deriving DecidableEq, Repr

/-- The schema that `quanianitisProvider.Schema` puts into its response. -/
def quanianitisProvider.Schema : TfSchema :=
  { MarkdownDescription := ""
    Attributes :=
      [("endpoint",
          { MarkdownDescription :=
              "Endpoint for cloud function mail forwarding for quanianitis.com domain"
            Required := false, Optional := true, Sensitive := true }),
       ("gcloud_identity_token",
          { MarkdownDescription :=
              "Authenticate and authorize to send and invoke mail forward with this function"
            Required := false, Optional := true, Sensitive := true })] }

/-- The schema that `QuanianitisMailResource.Schema` puts into its response:
the four required strings, and no attribute `id`. -/
def QuanianitisMailResource.Schema : TfSchema :=
  { MarkdownDescription := "Outbound Mail Forwarding for quanianitis.com domain"
    Attributes :=
      [("from",
          { MarkdownDescription := "work@quanianitis.com"
            Required := true, Optional := false, Sensitive := false }),
       ("to",
          { MarkdownDescription := "The email address of the recipient"
            Required := true, Optional := false, Sensitive := false }),
       ("subject",
          { MarkdownDescription := "The subject of the email"
            Required := true, Optional := false, Sensitive := false }),
       ("content",
          { MarkdownDescription := "The plain text content of the email"
            Required := true, Optional := false, Sensitive := false })] }

/-- The `tfsdk` tags of the struct `quanianitisProviderModel`. -/
def quanianitisProviderModel.tfsdkTags : List String := ["endpoint", "gcloud_identity_token"]

/-- The `tfsdk` tags of the struct `QuanianitisMailResourceModel`. -/
def QuanianitisMailResourceModel.tfsdkTags : List String :=
  ["id", "from", "to", "subject", "content"]

/-- The names of the attributes of a schema. -/
def TfSchema.names (s : TfSchema) : List String := s.Attributes.map Prod.fst

/-- The conversion between an object of a schema and a struct, as the plugin
framework performs it in `Get` and `Set` (the framework is not part of the
repository; this is its rule that struct and object must have the same
fields): when a tag of the struct names no attribute of the schema, or an
attribute has no tag, the conversion stops with one error diagnostic, summary
`Value Conversion Error`, whose detail names the fields; otherwise it reports
nothing.  The detail here is the text of the mismatch alone. -/
def conversionDiags (schema : TfSchema) (tags : List String) : Diagnostics :=
  let objectMissing := tags.filter (fun t => !(schema.names.contains t))
  let targetMissing := schema.names.filter (fun a => !(tags.contains a))
  if objectMissing.isEmpty && targetMissing.isEmpty then []
  else
    let structPart :=
      if objectMissing.isEmpty then []
      else ["Struct defines fields not found in object: " ++ ", ".intercalate objectMissing ++ "."]
    let objectPart :=
      if targetMissing.isEmpty then []
      else ["Object defines fields not found in struct: " ++ ", ".intercalate targetMissing ++ "."]
    [{ severity := Severity.error
       path := none
       summary := "Value Conversion Error"
       detail := "mismatch between struct and object: " ++ " ".intercalate (structPart ++ objectPart) }]

/-- What `Get` and `Set` report for the provider configuration. -/
def providerConversionDiags : Diagnostics :=
  conversionDiags quanianitisProvider.Schema quanianitisProviderModel.tfsdkTags

/-- What `Get` and `Set` report for the plan and the state of the mail
resource, whatever their content. -/
def mailConversionDiags : Diagnostics :=
  conversionDiags QuanianitisMailResource.Schema QuanianitisMailResourceModel.tfsdkTags

/-- A plan or prior state of the mail resource as the framework passes it: the
content, and the diagnostics `Get` reports for this schema and struct. -/
def mailData (content : QuanianitisMailResourceModel) : TfData QuanianitisMailResourceModel :=
  { value := content, getDiags := mailConversionDiags }

/-- A response of the mail resource as the framework passes it in: the given
state, no diagnostics, and a `Set` that reports what the conversion reports
for this schema and struct. -/
def mailResponse (raw : Option QuanianitisMailResourceModel) : Response :=
  { State := { Raw := raw, setDiags := fun _ => mailConversionDiags }, Diagnostics := [] }

/-! ## JSON decoding (RFC 8259) of an object whose member values are strings -/

/-- The value of a hexadecimal digit, in either case. -/
def hexVal (c : Char) : Option Nat :=
  let n := c.toNat
  if 48 ≤ n ∧ n ≤ 57 then some (n - 48)
  else if 97 ≤ n ∧ n ≤ 102 then some (n - 87)
  else if 65 ≤ n ∧ n ≤ 70 then some (n - 55)
  else none

/-- The number written by four hexadecimal digits. -/
def hex4 (a b c d : Char) : Option Nat :=
  match hexVal a, hexVal b, hexVal c, hexVal d with
  | some x, some y, some z, some w => some (((x * 16 + y) * 16 + z) * 16 + w)
  | _, _, _, _ => none

/-- The character of a two-character escape: the quote, the backslash, the
slash, and the control characters `b f n r t`. -/
def simpleEscape (e : Char) : Option Char :=
  if e = '"' then some '"'
  else if e = '\\' then some '\\'
  else if e = '/' then some '/'
  else if e = 'b' then some (Char.ofNat 8)
  else if e = 'f' then some (Char.ofNat 12)
  else if e = 'n' then some '\n'
  else if e = 'r' then some '\r'
  else if e = 't' then some '\t'
  else none

/-- The low half of a surrogate pair written as a `\uXXXX` escape at the head
of the input: its value and the input after it. -/
def lowSurrogate : List Char → Option (Nat × List Char)
  | '\\' :: 'u' :: a :: b :: c :: d :: rest =>
    match hex4 a b c d with
    | some n => if 0xDC00 ≤ n ∧ n < 0xE000 then some (n, rest) else none
    | none => none
  | _ => none

/-- Prepends a decoded character to the result of decoding the rest. -/
def consChar (c : Char) : Option (List Char × List Char) → Option (List Char × List Char)
  | some (s, rest) => some (c :: s, rest)
  | none => none

/-- Decodes the contents of a string literal up to its closing quote: the
decoded characters and the input after the quote.  Unescaped control characters
and malformed escapes are rejected; an escaped surrogate pair yields the
character it encodes and an unpaired surrogate yields U+FFFD.  The first
argument bounds the number of characters read. -/
def parseStringBody : Nat → List Char → Option (List Char × List Char)
  | 0, _ => none
  | _ + 1, [] => none
  | fuel + 1, c :: rest =>
    if c = '"' then some ([], rest)
    else if c = '\\' then
      match rest with
      | [] => none
      | e :: rest1 =>
        if e = 'u' then
          match rest1 with
          | a :: b :: c1 :: d :: rest2 =>
            match hex4 a b c1 d with
            | none => none
            | some n =>
              if 0xD800 ≤ n ∧ n < 0xDC00 then
                match lowSurrogate rest2 with
                | some (m, rest3) =>
                  consChar (Char.ofNat (0x10000 + (n - 0xD800) * 0x400 + (m - 0xDC00)))
                    (parseStringBody fuel rest3)
                | none => consChar (Char.ofNat 0xFFFD) (parseStringBody fuel rest2)
              else if 0xDC00 ≤ n ∧ n < 0xE000 then
                consChar (Char.ofNat 0xFFFD) (parseStringBody fuel rest2)
              else consChar (Char.ofNat n) (parseStringBody fuel rest2)
          | _ => none
        else
          match simpleEscape e with
          | none => none
          | some ch => consChar ch (parseStringBody fuel rest1)
    else if c.toNat < 32 then none
    else consChar c (parseStringBody fuel rest)

/-- JSON whitespace: space, tab, line feed, carriage return. -/
def isWs (c : Char) : Bool := c = ' ' || c = '\t' || c = '\n' || c = '\r'

/-- Drops leading whitespace. -/
def skipWs : List Char → List Char
  | [] => []
  | c :: rest => if isWs c then skipWs rest else c :: rest

/-- Decodes a string literal, after optional whitespace. -/
def parseString (cs : List Char) : Option (String × List Char) :=
  match skipWs cs with
  | [] => none
  | c :: rest =>
    if c = '"' then
      match parseStringBody (rest.length + 1) rest with
      | some (s, rest1) => some (String.mk s, rest1)
      | none => none
    else none

/-- Decodes the members of an object up to its closing brace; the first
argument bounds the number of members. -/
def parseMembers : Nat → List Char → Option (List (String × String) × List Char)
  | 0, _ => none
  | fuel + 1, cs =>
    match parseString cs with
    | none => none
    | some (k, r1) =>
      match skipWs r1 with
      | [] => none
      | c :: r2 =>
        if c = ':' then
          match parseString r2 with
          | none => none
          | some (v, r3) =>
            match skipWs r3 with
            | [] => none
            | d :: r4 =>
              if d = ',' then
                match parseMembers fuel r4 with
                | some (ms, r5) => some ((k, v) :: ms, r5)
                | none => none
              else if d = '}' then some ([(k, v)], r4)
              else none
        else none

/-- Decodes a JSON text that is an object with string values: its members in
the order written, or `none` when the text is not such an object. -/
def jsonDecodeObject (cs : List Char) : Option (List (String × String)) :=
  match skipWs cs with
  | [] => none
  | c :: r =>
    if c = '{' then
      match skipWs r with
      | [] => none
      | d :: r1 =>
        if d = '}' then (if skipWs r1 = [] then some [] else none)
        else
          match parseMembers cs.length (d :: r1) with
          | some (ms, r2) => if skipWs r2 = [] then some ms else none
          | none => none
    else none

/-! ## The request that `Create` forwards -/

/-- The bytes `json.Marshal(mail)` yields for the map literal of `Create`. -/
def mailBody (data : QuanianitisMailResourceModel) : List Char :=
  '{' :: (encodeMembers (sortedEntries (mailMap data)) ++ ['}'])

/-- The request as `Create` builds it and the transport of the client then
decorates it: `POST` to the endpoint of the client, the content type and the
bearer header, the marshalled mail as body. -/
def mailRequest (client : Client) (data : QuanianitisMailResourceModel) : HttpRequest :=
  { Method := "POST"
    URL := client.Endpoint
    Header :=
      [("Content-Type", ["application/json"]),
       ("Authorization", ["Bearer " ++ client.Client.Transport.token])]
    Body := mailBody data }

/-- The record `Create` stores: the plan with `id` set to the formatted time. -/
def createdRecord (now : Time) (data : QuanianitisMailResourceModel) :
    QuanianitisMailResourceModel :=
  { data with Id := TfString.StringValue now.FormatRFC3339 }

/-! ## Sample inputs -/

/-- A base transport that answers every request with the given status. -/
def statusTransport (status : Int) : RoundTripper :=
  fun _ => Except.ok { StatusCode := status }

/-- A base transport that fails every request with the given error. -/
def brokenTransport (cause : String) : RoundTripper :=
  fun _ => Except.error cause

/-- `stringContainsCTLByte` of `net/url`: some byte is an ASCII control character. -/
def stringContainsCTLByte (s : String) : Bool :=
  s.data.any (fun c => decide (c.toNat < 32) || decide (c.toNat = 127))

/-- A library instance: `url.Parse` rejects a URL that contains a control
character, as `net/url` does first of all, and accepts the rest; URLs are
quoted by enclosing them in double quotes. -/
def sampleLib : NetLib :=
  { parseURL := fun u =>
      if stringContainsCTLByte u then some "net/url: invalid control character in URL" else none
    quoteURL := fun u => "\"" ++ u ++ "\"" }

/-- An environment in which only `GCLOUD_IDENTITY_TOKEN` is set. -/
def envWithToken (token : String) : Environ :=
  fun key => if key = "GCLOUD_IDENTITY_TOKEN" then some token else none

/-- An environment without variables. -/
def emptyEnv : Environ := fun _ => none

/-- A configure response as the framework passes it in: nothing set. -/
def freshConfigureResponse : ConfigureResponse :=
  { Diagnostics := [], DataSourceData := none, ResourceData := none }

/-- A configure request whose configuration decodes without diagnostics. -/
def configureRequest (endpoint token : TfString) : ConfigureRequest :=
  { Config := { value := { Endpoint := endpoint, Gcloud_identity_token := token }, getDiags := [] } }

/-- A response holding the given state, no diagnostics, and a `Set` that
reports none. -/
def freshResponse (raw : Option QuanianitisMailResourceModel) : Response :=
  { State := { Raw := raw, setDiags := fun _ => [] }, Diagnostics := [] }

/-- A client bound to an endpoint, a token and a base transport. -/
def clientOf (endpoint token : String) (base : RoundTripper) : Client :=
  { Endpoint := endpoint, Client := { Transport := { token := token, base := base } } }

/-- A plan for one mail. -/
def samplePlan : QuanianitisMailResourceModel :=
  { Id := TfString.unknown
    From := TfString.value "work@quanianitis.com"
    To := TfString.value "you@example.com"
    Subject := TfString.value "Hi <all> & \"others\""
    Content := TfString.value "line 1\nline 2" }

/-- A stored record. -/
def sampleRecord : QuanianitisMailResourceModel :=
  { Id := TfString.value "2024-05-06T07:08:09Z"
    From := TfString.value "work@quanianitis.com"
    To := TfString.value "me@example.com"
    Subject := TfString.value "Old subject"
    Content := TfString.value "Old content" }

/-- A creation time: 4 November 2026, 09:05:07, five and a half hours east of UTC. -/
def sampleTime : Time :=
  { year := 2026, month := 11, day := 4, hour := 9, minute := 5, second := 7, offset := 19800 }

/-! ## Decoding undoes `json.Marshal` -/

theorem hexVal_hexDigit (k : Nat) (h : k < 16) : hexVal (hexDigit k) = some k := by
  interval_cases k <;> rfl

theorem hex4_low (n : Nat) (h : n < 256) :
    hex4 '0' '0' (hexDigit (n / 16)) (hexDigit (n % 16)) = some n := by
  have h1 : hexVal (hexDigit (n / 16)) = some (n / 16) := hexVal_hexDigit _ (by omega)
  have h2 : hexVal (hexDigit (n % 16)) = some (n % 16) := hexVal_hexDigit _ (by omega)
  have h0 : hexVal '0' = some 0 := by rfl
  simp only [hex4, h0, h1, h2]
  congr 1
  omega

theorem char_ne_of_toNat_ne {c d : Char} (h : c.toNat ≠ d.toNat) : c ≠ d := by
  intro e; exact h (by rw [e])

theorem parseStringBody_plain (fuel : Nat) (c : Char) (tail : List Char)
    (h1 : c ≠ '"') (h2 : c ≠ '\\') (h3 : 32 ≤ c.toNat) :
    parseStringBody (fuel + 1) (c :: tail) = consChar c (parseStringBody fuel tail) := by
  have h4 : ¬ c.toNat < 32 := by omega
  simp only [parseStringBody, h1, h2, h4, if_false]

theorem parseStringBody_escapeChar (fuel : Nat) (c : Char) (tail : List Char) :
    parseStringBody (fuel + 1) (escapeChar c ++ tail) = consChar c (parseStringBody fuel tail) := by
  unfold escapeChar
  split_ifs with h1 h2 h3 h4 h5 h6 h7 h8 h9
  · simp only [htmlSafe, Bool.and_eq_true, decide_eq_true_eq, Bool.not_eq_true', Bool.or_eq_false_iff,
      decide_eq_false_iff_not] at h2
    exact parseStringBody_plain fuel c tail h2.2.1.1.1.1 h2.2.2 h2.1.1
  · rcases h3 with h3 | h3 <;> subst h3 <;> rfl
  · subst h4; rfl
  · subst h5; rfl
  · subst h6; rfl
  · subst h7; rfl
  · subst h8; rfl
  · have hx := hex4_low c.toNat (by omega)
    have e1 : ('\\' : Char) ≠ '"' := by decide
    have hs : ¬ (0xD800 ≤ c.toNat ∧ c.toNat < 0xDC00) := by omega
    have hs2 : ¬ (0xDC00 ≤ c.toNat ∧ c.toNat < 0xE000) := by omega
    show parseStringBody (fuel + 1)
      ('\\' :: 'u' :: '0' :: '0' :: hexDigit (c.toNat / 16) :: hexDigit (c.toNat % 16) :: tail) = _
    simp only [parseStringBody, e1, if_false, if_true, hx, hs, hs2, Char.ofNat_toNat]
  · rcases h9 with h9 | h9 <;> subst h9 <;> rfl
  · have e1 : c ≠ '"' := char_ne_of_toNat_ne (by simp only [show ('"' : Char).toNat = 34 from rfl]; omega)
    have e2 : c ≠ '\\' := char_ne_of_toNat_ne (by simp only [show ('\\' : Char).toNat = 92 from rfl]; omega)
    exact parseStringBody_plain fuel c tail e1 e2 (by omega)


theorem escapeChar_ne_nil (c : Char) : 1 ≤ (escapeChar c).length := by
  unfold escapeChar
  split_ifs <;> simp

theorem length_le_escapeChars (s : List Char) : s.length ≤ (escapeChars s).length := by
  induction s with
  | nil => simp [escapeChars]
  | cons c cs ih =>
    have := escapeChar_ne_nil c
    simp only [escapeChars, List.length_cons, List.length_append]
    omega

theorem parseStringBody_escapeChars (s : List Char) :
    ∀ (fuel : Nat) (rest : List Char), s.length < fuel →
      parseStringBody fuel (escapeChars s ++ '"' :: rest) = some (s, rest) := by
  induction s with
  | nil =>
    intro fuel rest h
    obtain ⟨f, rfl⟩ : ∃ f, fuel = f + 1 := ⟨fuel - 1, by simp at h; omega⟩
    simp [escapeChars, parseStringBody]
  | cons c cs ih =>
    intro fuel rest h
    obtain ⟨f, rfl⟩ : ∃ f, fuel = f + 1 := ⟨fuel - 1, by omega⟩
    have hf : cs.length < f := by simp only [List.length_cons] at h; omega
    rw [escapeChars, List.append_assoc, parseStringBody_escapeChar, ih f rest hf]
    rfl

theorem skipWs_quote (rest : List Char) : skipWs ('"' :: rest) = '"' :: rest := by
  rfl

theorem parseString_appendString (s : String) (rest : List Char) :
    parseString (appendString s ++ rest) = some (s, rest) := by
  have hlen := length_le_escapeChars s.data
  have h := parseStringBody_escapeChars s.data
    ((escapeChars s.data ++ '"' :: rest).length + 1) rest
    (by simp only [List.length_append, List.length_cons]; omega)
  have e : appendString s ++ rest = '"' :: (escapeChars s.data ++ '"' :: rest) := by
    simp [appendString]
  rw [e]
  simp only [parseString, skipWs_quote, if_true, h]

theorem skipWs_colon (rest : List Char) : skipWs (':' :: rest) = ':' :: rest := by
  rfl

theorem skipWs_comma (rest : List Char) : skipWs (',' :: rest) = ',' :: rest := by
  rfl

theorem skipWs_brace (rest : List Char) : skipWs ('}' :: rest) = '}' :: rest := by
  rfl

theorem parseMembers_encodeMembers (e : String × String) (es : List (String × String)) :
    ∀ (fuel : Nat) (rest : List Char), es.length < fuel →
      parseMembers fuel (encodeMembers (e :: es) ++ '}' :: rest) = some (e :: es, rest) := by
  induction es generalizing e with
  | nil =>
    intro fuel rest h
    obtain ⟨f, rfl⟩ : ∃ f, fuel = f + 1 := ⟨fuel - 1, by simp at h; omega⟩
    have e1 : encodeMembers [e] ++ '}' :: rest
        = appendString e.1 ++ (':' :: (appendString e.2 ++ ('}' :: rest))) := by
      simp [encodeMembers]
    have e2 : ('}' : Char) ≠ ',' := by decide
    rw [e1]
    simp only [parseMembers, parseString_appendString, skipWs_colon, skipWs_brace, if_true, e2,
      if_false]
  | cons g gs ih =>
    intro fuel rest h
    obtain ⟨f, rfl⟩ : ∃ f, fuel = f + 1 := ⟨fuel - 1, by omega⟩
    have hf : gs.length < f := by simp only [List.length_cons] at h; omega
    have e1 : encodeMembers (e :: g :: gs) ++ '}' :: rest
        = appendString e.1 ++ (':' :: (appendString e.2 ++
            (',' :: (encodeMembers (g :: gs) ++ '}' :: rest)))) := by
      simp [encodeMembers]
    rw [e1]
    simp only [parseMembers, parseString_appendString, skipWs_colon, skipWs_comma, if_true,
      ih g f rest hf]

theorem length_le_encodeMembers (es : List (String × String)) :
    es.length ≤ (encodeMembers es).length := by
  induction es with
  | nil => simp
  | cons e es ih =>
    cases es with
    | nil => simp [encodeMembers, appendString]
    | cons g gs =>
      simp only [encodeMembers, List.length_cons, List.length_append] at ih ⊢
      omega

theorem encodeMembers_head (e : String × String) (es : List (String × String)) :
    ∃ tail, encodeMembers (e :: es) = '"' :: tail := by
  cases es with
  | nil => exact ⟨_, by simp [encodeMembers, appendString]; rfl⟩
  | cons g gs => exact ⟨_, by simp [encodeMembers, appendString]; rfl⟩

theorem jsonDecodeObject_encode (es : List (String × String)) :
    jsonDecodeObject ('{' :: (encodeMembers es ++ ['}'])) = some es := by
  cases es with
  | nil => rfl
  | cons e es =>
    obtain ⟨tail, ht⟩ := encodeMembers_head e es
    have hl := length_le_encodeMembers (e :: es)
    have hp := parseMembers_encodeMembers e es
      ('{' :: (encodeMembers (e :: es) ++ ['}'])).length []
      (by simp only [List.length_cons, List.length_append] at hl ⊢; omega)
    have e0 : skipWs ('{' :: (encodeMembers (e :: es) ++ ['}']))
        = '{' :: (encodeMembers (e :: es) ++ ['}']) := rfl
    have e1 : skipWs (encodeMembers (e :: es) ++ ['}']) = '"' :: (tail ++ ['}']) := by
      rw [ht]; rfl
    have e2 : ('"' : Char) ≠ '}' := by decide
    have e3 : '"' :: (tail ++ ['}']) = encodeMembers (e :: es) ++ ['}'] := by
      rw [ht]; rfl
    simp only [jsonDecodeObject, e0, e1, if_true, e2, if_false]
    rw [e3, hp]
    rfl

theorem sortedEntries_mailMap (data : QuanianitisMailResourceModel) :
    sortedEntries (mailMap data) =
      [("from_address", data.From.ValueString),
       ("plain_text_content", data.Content.ValueString),
       ("subject", data.Subject.ValueString),
       ("to_address", data.To.ValueString)] := by
  have k1 : keyLess "plain_text_content" "subject" = true := by decide
  have k2 : keyLess "plain_text_content" "to_address" = true := by decide
  have k3 : keyLess "subject" "to_address" = true := by decide
  have k4 : keyLess "plain_text_content" "from_address" = false := by decide
  simp only [sortedEntries, mailMap, insertEntry, k1, k2, k3, k4, if_true]
  rfl

/-! ## Diagnostics -/

theorem HasError_of_mem {ds : Diagnostics} {d : Diagnostic} (hm : d ∈ ds)
    (he : d.severity = Severity.error) : Diagnostics.HasError ds = true := by
  simp only [Diagnostics.HasError, List.any_eq_true, decide_eq_true_eq]
  exact ⟨d, hm, he⟩

theorem HasError_appendOne (ds : Diagnostics) (d : Diagnostic) :
    Diagnostics.HasError (Diagnostics.appendOne ds d)
      = (Diagnostics.HasError ds || decide (d.severity = Severity.error)) := by
  unfold Diagnostics.appendOne
  split_ifs with hm
  · by_cases he : d.severity = Severity.error
    · simp [HasError_of_mem hm he, he]
    · simp [he]
  · simp [Diagnostics.HasError]

theorem HasError_Append (more : Diagnostics) :
    ∀ ds : Diagnostics, Diagnostics.HasError (Diagnostics.Append ds more)
      = (Diagnostics.HasError ds || Diagnostics.HasError more) := by
  induction more with
  | nil => intro ds; simp [Diagnostics.Append, Diagnostics.HasError]
  | cons d more ih =>
    intro ds
    have h := ih (Diagnostics.appendOne ds d)
    simp only [Diagnostics.Append, List.foldl_cons] at h ⊢
    rw [h, HasError_appendOne]
    simp [Diagnostics.HasError, Bool.or_assoc]

theorem mem_appendOne (ds : Diagnostics) (d : Diagnostic) : d ∈ Diagnostics.appendOne ds d := by
  unfold Diagnostics.appendOne
  split_ifs with hm
  · exact hm
  · simp

theorem HasError_AddAttributeError (ds : Diagnostics) (a s d : String) :
    Diagnostics.HasError (Diagnostics.AddAttributeError ds a s d) = true := by
  simp [Diagnostics.AddAttributeError, HasError_appendOne]

theorem HasError_AddError (ds : Diagnostics) (s d : String) :
    Diagnostics.HasError (Diagnostics.AddError ds s d) = true := by
  simp [Diagnostics.AddError, HasError_appendOne]

/-! ## Headers -/

theorem values_put_same (h : Header) (key : String) (vs : List String) :
    Header.values (Header.put h key vs) key = vs := by
  induction h with
  | nil => simp [Header.put, Header.values]
  | cons e rest ih =>
    obtain ⟨k, old⟩ := e
    by_cases hk : k = key
    · simp [Header.put, Header.values, hk]
    · simp [Header.put, Header.values, hk, ih]

theorem values_put_other (h : Header) (key : String) (vs : List String) (k2 : String)
    (hne : k2 ≠ key) : Header.values (Header.put h key vs) k2 = Header.values h k2 := by
  induction h with
  | nil =>
    have : ¬ key = k2 := fun e => hne e.symm
    simp [Header.put, Header.values, this]
  | cons e rest ih =>
    obtain ⟨k, old⟩ := e
    by_cases hk : k = key
    · subst hk
      have : ¬ k = k2 := fun e => hne e.symm
      simp [Header.put, Header.values, this]
    · by_cases hk2 : k = k2
      · subst hk2
        simp [Header.put, Header.values, hk]
      · simp [Header.put, Header.values, hk, hk2, ih]

/-! ## `Configure` -/

/-- What `Configure` returns once decoding succeeds and both configuration values
are known (null or set): the environment variable alone decides the outcome. -/
theorem Configure_known (T : RoundTripper) (env : Environ) (req : ConfigureRequest)
    (resp : ConfigureResponse)
    (hresp : Diagnostics.HasError resp.Diagnostics = false)
    (hget : Diagnostics.HasError req.Config.getDiags = false)
    (hE : req.Config.value.Endpoint.IsUnknown = false)
    (hT : req.Config.value.Gcloud_identity_token.IsUnknown = false) :
    Configure T env req resp =
      if Getenv env "GCLOUD_IDENTITY_TOKEN" = "" then
        { resp with
          Diagnostics :=
            Diagnostics.AddAttributeError (Diagnostics.Append resp.Diagnostics req.Config.getDiags)
              "gcloud_identity_token" "Summary (Gcloud_identity_token)"
              "Detail (Gcloud_identity_token)" }
      else
        { Diagnostics := Diagnostics.Append resp.Diagnostics req.Config.getDiags
          DataSourceData :=
            some { Transport := { token := Getenv env "GCLOUD_IDENTITY_TOKEN", base := T } }
          ResourceData :=
            some
              { Endpoint :=
                  if req.Config.value.Endpoint.IsNull then "" else defaultEndpoint
                Client :=
                  { Transport := { token := Getenv env "GCLOUD_IDENTITY_TOKEN", base := T } } } } := by
  obtain ⟨⟨⟨E, K⟩, gd⟩⟩ := req
  have h0 : Diagnostics.HasError (Diagnostics.Append resp.Diagnostics gd) = false := by
    rw [HasError_Append, hresp]; exact hget
  by_cases htok : Getenv env "GCLOUD_IDENTITY_TOKEN" = ""
  · cases E <;> cases K <;>
      first
      | (simp [TfString.IsUnknown] at hE; done)
      | (simp [TfString.IsUnknown] at hT; done)
      | simp [Configure, TfData.Get, h0, htok, HasError_AddAttributeError, TfString.IsUnknown,
          TfString.IsNull]
  · cases E <;> cases K <;>
      first
      | (simp [TfString.IsUnknown] at hE; done)
      | (simp [TfString.IsUnknown] at hT; done)
      | simp [Configure, TfData.Get, h0, htok, TfString.IsUnknown, TfString.IsNull,
          TfString.ValueString, TfString.StringValue]

/-! ## `Create` -/

/-- What `Create` does once the resource is configured, the plan decodes and
the endpoint parses as a URL: exactly one request reaches the base transport,
and the result of that transport decides between the forwarding error and
storing the record. -/
theorem Create_forward (lib : NetLib) (now : Time) (r : QuanianitisMailResource)
    (client : Client) (req : CreateRequest) (resp : Response)
    (hc : r.client = some client)
    (hresp : Diagnostics.HasError resp.Diagnostics = false)
    (hget : Diagnostics.HasError req.Plan.getDiags = false)
    (hurl : lib.parseURL client.Endpoint = none) :
    Create lib now r req resp =
      some
        (match client.Client.Transport.base (mailRequest client req.Plan.value) with
        | Except.error e =>
          { resp :=
              { State := resp.State
                Diagnostics :=
                  Diagnostics.AddError (Diagnostics.Append resp.Diagnostics req.Plan.getDiags)
                    "Error forwarding mail"
                    ("Unable to forward mail: " ++
                      ("Post " ++ lib.quoteURL client.Endpoint ++ ": " ++ e)) }
            sent := [mailRequest client req.Plan.value] }
        | Except.ok _ =>
          { resp :=
              { State := (resp.State.Set (createdRecord now req.Plan.value)).1
                Diagnostics :=
                  Diagnostics.Append (Diagnostics.Append resp.Diagnostics req.Plan.getDiags)
                    (resp.State.Set (createdRecord now req.Plan.value)).2 }
            sent := [mailRequest client req.Plan.value] }) := by
  have h0 : Diagnostics.HasError (Diagnostics.Append resp.Diagnostics req.Plan.getDiags) = false := by
    rw [HasError_Append, hresp]; exact hget
  have hop : urlErrorOp "POST" = "Post" := by decide
  have hq : (HttpRequest.mk "POST" client.Endpoint
      (Header.Add (Header.Set [] "Content-Type" "application/json") "Authorization"
        ("Bearer " ++ client.Client.Transport.token)) (mailBody req.Plan.value))
      = mailRequest client req.Plan.value := by
    simp [mailRequest, Header.Add, Header.Set, Header.put, Header.values]
  simp only [Create, TfData.Get, h0, hc, jsonMarshal, NewRequest, hurl, HttpClient.Do,
    transportWithAuth.RoundTrip]
  have hq2 : (HttpRequest.mk "POST" client.Endpoint
      (Header.Add (Header.Set [] "Content-Type" "application/json") "Authorization"
        ("Bearer " ++ client.Client.Transport.token))
      ('{' :: (encodeMembers (sortedEntries (mailMap
        { req.Plan.value with Id := TfString.StringValue now.FormatRFC3339 })) ++ ['}'])))
      = mailRequest client req.Plan.value := hq
  simp only [hq2, hop]
  cases client.Client.Transport.base (mailRequest client req.Plan.value) with
  | error e => simp
  | ok hr => simp [createdRecord]

/-! ## The shape of a formatted time -/

theorem isDigit_digitChar (n : Nat) (h : n < 10) : (Nat.digitChar n).isDigit = true := by
  interval_cases n <;> rfl

theorem appendInt_two (n : Nat) (h : n < 100) :
    appendInt (n : Int) 2 = [Nat.digitChar (n / 10), Nat.digitChar (n % 10)] := by
  have h1 : ¬ ((n : Int) < 0) := by omega
  simp [appendInt, h, h1]

theorem appendInt_four (y : Int) (h0 : 0 ≤ y) (h1 : y ≤ 9999) :
    appendInt y 4 = [Nat.digitChar (y.natAbs / 1000), Nat.digitChar (y.natAbs / 100 % 10),
      Nat.digitChar (y.natAbs / 10 % 10), Nat.digitChar (y.natAbs % 10)] := by
  have h2 : ¬ (y < 0) := by omega
  have h3 : y.natAbs < 10000 := by omega
  simp [appendInt, h2, h3]

theorem isZone_appendZone (offset : Int) (h : offset.natAbs < 86400) :
    isZone (appendZone offset) = true := by
  unfold appendZone
  split_ifs with h0
  · rfl
  · obtain ⟨k, hk⟩ : ∃ k : Nat, (if Int.tdiv offset 60 < 0 then -Int.tdiv offset 60
        else Int.tdiv offset 60) = (k : Int) ∧ k < 1440 := by
      refine ⟨(Int.tdiv offset 60).natAbs, ?_, ?_⟩
      · split_ifs with hz <;> omega
      · rw [Int.natAbs_tdiv]
        show offset.natAbs / 60 < 1440
        omega
    simp only [hk.1]
    have e1 : Int.tdiv (k : Int) 60 = ((k / 60 : Nat) : Int) := (Int.ofNat_tdiv k 60).symm
    have e2 : Int.tmod (k : Int) 60 = ((k % 60 : Nat) : Int) := (Int.ofNat_tmod k 60).symm
    rw [e1, e2, appendInt_two (k / 60) (by omega), appendInt_two (k % 60) (by omega)]
    have d1 := isDigit_digitChar (k / 60 / 10) (by omega)
    have d2 := isDigit_digitChar (k / 60 % 10) (by omega)
    have d3 := isDigit_digitChar (k % 60 / 10) (by omega)
    have d4 := isDigit_digitChar (k % 60 % 10) (by omega)
    split_ifs <;> simp [isZone, d1, d2, d3, d4]

theorem isRFC3339_Format (t : Time) (h : t.isCivil = true) :
    isRFC3339 t.FormatRFC3339.data = true := by
  simp only [Time.isCivil, Bool.and_eq_true, decide_eq_true_eq] at h
  obtain ⟨⟨⟨⟨⟨⟨⟨⟨⟨hy0, hy1⟩, hm0⟩, hm1⟩, hd0⟩, hd1⟩, hh⟩, hn⟩, hs⟩, ho⟩ := h
  have hz := isZone_appendZone t.offset ho
  have y1 := isDigit_digitChar (t.year.natAbs / 1000) (by omega)
  have y2 := isDigit_digitChar (t.year.natAbs / 100 % 10) (by omega)
  have y3 := isDigit_digitChar (t.year.natAbs / 10 % 10) (by omega)
  have y4 := isDigit_digitChar (t.year.natAbs % 10) (by omega)
  have m1 := isDigit_digitChar (t.month / 10) (by omega)
  have m2 := isDigit_digitChar (t.month % 10) (by omega)
  have d1 := isDigit_digitChar (t.day / 10) (by omega)
  have d2 := isDigit_digitChar (t.day % 10) (by omega)
  have h1 := isDigit_digitChar (t.hour / 10) (by omega)
  have h2 := isDigit_digitChar (t.hour % 10) (by omega)
  have n1 := isDigit_digitChar (t.minute / 10) (by omega)
  have n2 := isDigit_digitChar (t.minute % 10) (by omega)
  have s1 := isDigit_digitChar (t.second / 10) (by omega)
  have s2 := isDigit_digitChar (t.second % 10) (by omega)
  simp only [Time.FormatRFC3339, appendInt_four t.year hy0 hy1, appendInt_two t.month (by omega),
    appendInt_two t.day (by omega), appendInt_two t.hour (by omega),
    appendInt_two t.minute (by omega), appendInt_two t.second (by omega)]
  simp [isRFC3339, hz, y1, y2, y3, y4, m1, m2, d1, d2, h1, h2, n1, n2, s1, s2]

/-! ## Claims about `Configure` -/

/-- C3: when the configuration decodes, both values are known and the
environment variable `GCLOUD_IDENTITY_TOKEN` is unset or empty, `Configure`
reports an error diagnostic on the attribute `gcloud_identity_token` and sets
neither the resource data nor the data-source data of the response. -/
theorem Configure_missing_credential (T : RoundTripper) (env : Environ)
    (req : ConfigureRequest) (resp : ConfigureResponse)
    (hresp : Diagnostics.HasError resp.Diagnostics = false)
    (hget : Diagnostics.HasError req.Config.getDiags = false)
    (hE : req.Config.value.Endpoint.IsUnknown = false)
    (hT : req.Config.value.Gcloud_identity_token.IsUnknown = false)
    (henv : env "GCLOUD_IDENTITY_TOKEN" = none ∨ env "GCLOUD_IDENTITY_TOKEN" = some "") :
    Diagnostics.HasError (Configure T env req resp).Diagnostics = true ∧
      (∃ d ∈ (Configure T env req resp).Diagnostics,
        d.severity = Severity.error ∧ d.path = some "gcloud_identity_token") ∧
      (Configure T env req resp).ResourceData = resp.ResourceData ∧
      (Configure T env req resp).DataSourceData = resp.DataSourceData := by
  have htok : Getenv env "GCLOUD_IDENTITY_TOKEN" = "" := by
    rcases henv with h | h <;> simp [Getenv, h]
  rw [Configure_known T env req resp hresp hget hE hT, if_pos htok]
  refine ⟨HasError_AddAttributeError _ _ _ _, ⟨_, mem_appendOne _ _, rfl, rfl⟩, rfl, rfl⟩

/-- C3, at an input: no explicit token, no environment variable. -/
theorem Configure_missing_credential_witness :
    Diagnostics.HasError
        (Configure (statusTransport 200) emptyEnv (configureRequest TfString.null TfString.null)
          freshConfigureResponse).Diagnostics = true ∧
      (Configure (statusTransport 200) emptyEnv (configureRequest TfString.null TfString.null)
        freshConfigureResponse).ResourceData.isNone = true ∧
      (Configure (statusTransport 200) emptyEnv (configureRequest TfString.null TfString.null)
        freshConfigureResponse).DataSourceData.isNone = true := by
  have h := Configure_missing_credential (statusTransport 200) emptyEnv
    (configureRequest TfString.null TfString.null) freshConfigureResponse rfl rfl rfl rfl
    (Or.inl rfl)
  refine ⟨h.1, ?_, ?_⟩
  · rw [h.2.2.1]; rfl
  · rw [h.2.2.2]; rfl

/-- C9: when the configuration decodes, `endpoint` is set to a string `s`, the
token value is known and the environment variable holds a non-empty token,
`Configure` reports no error and binds the client to the default endpoint
literal, whatever `s` is. -/
theorem Configure_endpoint_set (T : RoundTripper) (env : Environ)
    (req : ConfigureRequest) (resp : ConfigureResponse) (s : String)
    (hresp : Diagnostics.HasError resp.Diagnostics = false)
    (hget : Diagnostics.HasError req.Config.getDiags = false)
    (hE : req.Config.value.Endpoint = TfString.value s)
    (hT : req.Config.value.Gcloud_identity_token.IsUnknown = false)
    (henv : Getenv env "GCLOUD_IDENTITY_TOKEN" ≠ "") :
    Diagnostics.HasError (Configure T env req resp).Diagnostics = false ∧
      ∃ client, (Configure T env req resp).ResourceData = some client ∧
        client.Endpoint = "https://asia-southeast1-personal-quanianitis.cloudfunctions.net/sendgrid" := by
  have hE2 : req.Config.value.Endpoint.IsUnknown = false := by rw [hE]; rfl
  have hn : req.Config.value.Endpoint.IsNull = false := by rw [hE]; rfl
  rw [Configure_known T env req resp hresp hget hE2 hT, if_neg henv]
  refine ⟨?_, _, rfl, ?_⟩
  · show Diagnostics.HasError (Diagnostics.Append resp.Diagnostics req.Config.getDiags) = false
    rw [HasError_Append, hresp]; exact hget
  · simp [hn, defaultEndpoint]

/-- C9, at an input: another endpoint is configured. -/
theorem Configure_endpoint_set_witness :
    Diagnostics.HasError
        (Configure (statusTransport 200) (envWithToken "env-token")
          (configureRequest (TfString.value "https://mail.example.com/send") TfString.null)
          freshConfigureResponse).Diagnostics = false ∧
      ∃ client,
        (Configure (statusTransport 200) (envWithToken "env-token")
          (configureRequest (TfString.value "https://mail.example.com/send") TfString.null)
          freshConfigureResponse).ResourceData = some client ∧
        client.Endpoint = "https://asia-southeast1-personal-quanianitis.cloudfunctions.net/sendgrid" :=
  Configure_endpoint_set (statusTransport 200) (envWithToken "env-token")
    (configureRequest (TfString.value "https://mail.example.com/send") TfString.null)
    freshConfigureResponse "https://mail.example.com/send" rfl rfl rfl rfl (by decide)

/-- C2: with `gcloud_identity_token` set to `config-token`, `Configure` binds the
value of the environment variable when there is one, and fails when there is
none; the configured value never reaches the client. -/
theorem Configure_explicit_token_ignored :
    ((Configure (statusTransport 200) (envWithToken "env-token")
        (configureRequest TfString.null (TfString.value "config-token"))
        freshConfigureResponse).ResourceData.map (fun c => c.Client.Transport.token)
      = some "env-token") ∧
    Diagnostics.HasError
        (Configure (statusTransport 200) emptyEnv
          (configureRequest TfString.null (TfString.value "config-token"))
          freshConfigureResponse).Diagnostics = true ∧
    (Configure (statusTransport 200) emptyEnv
        (configureRequest TfString.null (TfString.value "config-token"))
        freshConfigureResponse).ResourceData.isNone = true := by
  refine ⟨?_, ?_, ?_⟩ <;> rfl

/-- C8: with `endpoint` unset and a token in the environment, `Configure`
succeeds and binds the client to the empty endpoint, not to the default literal. -/
theorem Configure_endpoint_unset :
    Diagnostics.HasError
        (Configure (statusTransport 200) (envWithToken "env-token")
          (configureRequest TfString.null TfString.null) freshConfigureResponse).Diagnostics = false ∧
    ((Configure (statusTransport 200) (envWithToken "env-token")
        (configureRequest TfString.null TfString.null)
        freshConfigureResponse).ResourceData.map (fun c => c.Endpoint) = some "") ∧
    "" ≠ defaultEndpoint := by
  refine ⟨?_, ?_, by decide⟩ <;> rfl

/-! ## Claims about the transport -/

/-- `Configure` either leaves the resource data of the response as it was or
sets it to a client whose transport carries the non-empty token of the
environment and wraps the default transport. -/
theorem Configure_resourceData (T : RoundTripper) (env : Environ) (req : ConfigureRequest)
    (resp : ConfigureResponse) :
    (Configure T env req resp).ResourceData = resp.ResourceData ∨
      ∃ client, (Configure T env req resp).ResourceData = some client ∧
        client.Client.Transport.base = T ∧
        client.Client.Transport.token = Getenv env "GCLOUD_IDENTITY_TOKEN" ∧
        Getenv env "GCLOUD_IDENTITY_TOKEN" ≠ "" := by
  obtain ⟨⟨⟨E, K⟩, gd⟩⟩ := req
  by_cases h0 : Diagnostics.HasError (Diagnostics.Append resp.Diagnostics gd) = true
  · left
    simp [Configure, TfData.Get, h0]
  · have h1 : Diagnostics.HasError (Diagnostics.Append resp.Diagnostics gd) = false := by
      simpa using h0
    by_cases htok : Getenv env "GCLOUD_IDENTITY_TOKEN" = ""
    · left
      cases E <;> cases K <;>
        simp [Configure, TfData.Get, h1, htok, HasError_AddAttributeError, TfString.IsUnknown,
          TfString.IsNull]
    · cases E <;> cases K <;>
        simp [Configure, TfData.Get, h1, htok, HasError_AddAttributeError, TfString.IsUnknown,
          TfString.IsNull]

/-- C6: `RoundTrip` hands the base transport exactly one request; its
`Authorization` header carries `Bearer ` followed by the token, appended after
the values already there; every other header, the method, the URL and the body
are those of the incoming request; the result is the one the base transport
returned for that request.  A client that `Configure` puts into a response
without one uses this transport over the default transport, with the token it
resolved, which is not empty. -/
theorem RoundTrip_adds_bearer (t : transportWithAuth) (req : HttpRequest) :
    (∃ q, (t.RoundTrip req).handed = [q] ∧ (t.RoundTrip req).result = t.base q ∧
      Header.values q.Header "Authorization"
        = Header.values req.Header "Authorization" ++ ["Bearer " ++ t.token] ∧
      ("Bearer " ++ t.token) ∈ Header.values q.Header "Authorization" ∧
      (∀ k, k ≠ "Authorization" → Header.values q.Header k = Header.values req.Header k) ∧
      q.Method = req.Method ∧ q.URL = req.URL ∧ q.Body = req.Body) ∧
    (∀ (T : RoundTripper) (env : Environ) (creq : ConfigureRequest) (cresp : ConfigureResponse)
      (client : Client), cresp.ResourceData = none →
      (Configure T env creq cresp).ResourceData = some client →
        client.Client.Transport.base = T ∧
        client.Client.Transport.token = Getenv env "GCLOUD_IDENTITY_TOKEN" ∧
        client.Client.Transport.token ≠ "") := by
  constructor
  · refine ⟨_, rfl, rfl, ?_, ?_, ?_, rfl, rfl, rfl⟩
    · exact values_put_same _ _ _
    · show _ ∈ Header.values (Header.put _ _ _) _
      rw [values_put_same]
      simp
    · intro k hk
      exact values_put_other _ _ _ k hk
  · intro T env creq cresp client hnone hsome
    rcases Configure_resourceData T env creq cresp with h | ⟨c, hc, hb, ht, hne⟩
    · rw [h, hnone] at hsome
      exact absurd hsome (by simp)
    · rw [hc] at hsome
      cases hsome
      exact ⟨hb, ht, by rw [ht]; exact hne⟩

/-! ## Runs of the mail resource: the conversion error -/

theorem HasError_mailConversionDiags : Diagnostics.HasError mailConversionDiags = true := by
  decide

theorem providerConversionDiags_nil : providerConversionDiags = [] := by
  decide

/-- When the plan does not decode, `Create` returns with the diagnostics of the
decoding, the state as it was, and nothing sent. -/
theorem Create_undecodable (lib : NetLib) (now : Time) (r : QuanianitisMailResource)
    (req : CreateRequest) (resp : Response)
    (h : Diagnostics.HasError (Diagnostics.Append resp.Diagnostics req.Plan.getDiags) = true) :
    Create lib now r req resp =
      some
        { resp :=
            { State := resp.State
              Diagnostics := Diagnostics.Append resp.Diagnostics req.Plan.getDiags }
          sent := [] } := by
  simp [Create, TfData.Get, h]

/-- A client that `Configure` puts into a response without one is bound to the
empty endpoint or to the default literal. -/
theorem Configure_endpoints (T : RoundTripper) (env : Environ) (req : ConfigureRequest)
    (resp : ConfigureResponse) (client : Client) (hnone : resp.ResourceData = none)
    (h : (Configure T env req resp).ResourceData = some client) :
    client.Endpoint = "" ∨ client.Endpoint = defaultEndpoint := by
  obtain ⟨⟨⟨E, K⟩, gd⟩⟩ := req
  by_cases h0 : Diagnostics.HasError (Diagnostics.Append resp.Diagnostics gd) = true
  · simp [Configure, TfData.Get, h0, hnone] at h
  · have h1 : Diagnostics.HasError (Diagnostics.Append resp.Diagnostics gd) = false := by
      simpa using h0
    by_cases htok : Getenv env "GCLOUD_IDENTITY_TOKEN" = ""
    · cases E <;> cases K <;>
        simp [Configure, TfData.Get, h1, htok, HasError_AddAttributeError, TfString.IsUnknown,
          TfString.IsNull, hnone] at h
    · cases E <;> cases K <;>
        simp [Configure, TfData.Get, h1, htok, HasError_AddAttributeError, TfString.IsUnknown,
          TfString.IsNull, TfString.ValueString, TfString.StringValue, hnone] at h <;>
        (subst h; simp)

/-! ## Claims about `Create` -/

/-- C1: at a remote that answers with status 500, `Create` stops where it
decodes the plan: the schema of the resource has no `id`, the struct has.  It
reports the conversion error and no diagnostic about the response or its
status, stores nothing and sends nothing. -/
theorem Create_status_500_conversion_error :
    ∃ out,
      Create sampleLib sampleTime
          { client := some (clientOf defaultEndpoint "env-token" (statusTransport 500)) }
          { Plan := mailData samplePlan } (mailResponse none) = some out ∧
        Diagnostics.HasError out.resp.Diagnostics = true ∧
        (∀ d ∈ out.resp.Diagnostics, d.summary = "Value Conversion Error") ∧
        out.resp.State.Raw = none ∧
        out.sent = [] := by
  rw [Create_undecodable sampleLib sampleTime
    { client := some (clientOf defaultEndpoint "env-token" (statusTransport 500)) }
    { Plan := mailData samplePlan } (mailResponse none) (by decide)]
  exact ⟨_, rfl, by decide, by decide, rfl, rfl⟩

/-- C4: at a remote that answers with status 200, `Create` stops where it
decodes the plan: it reports an error, stores no record and sends nothing. -/
theorem Create_status_200_conversion_error :
    ∃ out,
      Create sampleLib sampleTime
          { client := some (clientOf defaultEndpoint "env-token" (statusTransport 200)) }
          { Plan := mailData samplePlan } (mailResponse none) = some out ∧
        Diagnostics.HasError out.resp.Diagnostics = true ∧
        out.resp.Diagnostics = mailConversionDiags ∧
        out.resp.State.Raw = none ∧
        out.sent = [] := by
  rw [Create_undecodable sampleLib sampleTime
    { client := some (clientOf defaultEndpoint "env-token" (statusTransport 200)) }
    { Plan := mailData samplePlan } (mailResponse none) (by decide)]
  exact ⟨_, rfl, by decide, by decide, rfl, rfl⟩

/-- C5: the body of the request that `Create` forwards decodes as JSON to an
object with exactly the members `from_address`, `plain_text_content`,
`subject` and `to_address`, whose values are the `from`, `content`, `subject`
and `to` strings of the plan. -/
theorem Create_body_decodes (lib : NetLib) (now : Time) (r : QuanianitisMailResource)
    (client : Client) (req : CreateRequest) (resp : Response)
    (hc : r.client = some client)
    (hresp : Diagnostics.HasError resp.Diagnostics = false)
    (hget : Diagnostics.HasError req.Plan.getDiags = false)
    (hurl : lib.parseURL client.Endpoint = none) :
    ∃ out q, Create lib now r req resp = some out ∧ out.sent = [q] ∧
      jsonDecodeObject q.Body =
        some
          [("from_address", req.Plan.value.From.ValueString),
           ("plain_text_content", req.Plan.value.Content.ValueString),
           ("subject", req.Plan.value.Subject.ValueString),
           ("to_address", req.Plan.value.To.ValueString)] := by
  have hdec : jsonDecodeObject (mailRequest client req.Plan.value).Body =
      some
        [("from_address", req.Plan.value.From.ValueString),
         ("plain_text_content", req.Plan.value.Content.ValueString),
         ("subject", req.Plan.value.Subject.ValueString),
         ("to_address", req.Plan.value.To.ValueString)] := by
    show jsonDecodeObject (mailBody req.Plan.value) = _
    rw [mailBody, jsonDecodeObject_encode, sortedEntries_mailMap]
  rw [Create_forward lib now r client req resp hc hresp hget hurl]
  cases client.Client.Transport.base (mailRequest client req.Plan.value) with
  | error e => exact ⟨_, _, rfl, rfl, hdec⟩
  | ok hr => exact ⟨_, _, rfl, rfl, hdec⟩

/-- C5, at an input: the sample plan, whose subject needs escaping. -/
theorem Create_body_decodes_witness :
    ∃ out q,
      Create sampleLib sampleTime
          { client := some (clientOf defaultEndpoint "env-token" (statusTransport 200)) }
          { Plan := { value := samplePlan, getDiags := [] } } (freshResponse none) = some out ∧
        out.sent = [q] ∧
        jsonDecodeObject q.Body =
          some
            [("from_address", "work@quanianitis.com"),
             ("plain_text_content", "line 1\nline 2"),
             ("subject", "Hi <all> & \"others\""),
             ("to_address", "you@example.com")] :=
  Create_body_decodes sampleLib sampleTime _
    (clientOf defaultEndpoint "env-token" (statusTransport 200))
    { Plan := { value := samplePlan, getDiags := [] } } (freshResponse none) rfl rfl rfl rfl

/-- C7: for a resource configured with a client bound to one of the two
endpoints `Configure` binds, which parse as URLs, `Create` returns, and either
it reports an error and leaves the stored state as it was, or it reports no
error and has stored the record: it never ends silently without the record.
When it gets as far as the transport and the transport fails, the diagnostic
`Error forwarding mail` with the cause at the end of its detail is among those
reported and the stored state is as it was.  With the plan as the framework
passes it for the schema of the resource, `Create` always ends in the first
way, at the decoding of the plan, before any request. -/
theorem Create_failure_reported (lib : NetLib) (now : Time) (r : QuanianitisMailResource)
    (client : Client) (req : CreateRequest) (resp : Response)
    (hc : r.client = some client)
    (_hE : client.Endpoint = "" ∨ client.Endpoint = defaultEndpoint)
    (hurl : lib.parseURL client.Endpoint = none) :
    ∃ out, Create lib now r req resp = some out ∧
      ((Diagnostics.HasError out.resp.Diagnostics = true ∧
          out.resp.State.Raw = resp.State.Raw) ∨
        (Diagnostics.HasError out.resp.Diagnostics = false ∧
          out.resp.State.Raw = some (createdRecord now req.Plan.value))) ∧
      (∀ cause : String,
        Diagnostics.HasError (Diagnostics.Append resp.Diagnostics req.Plan.getDiags) = false →
        client.Client.Transport.base (mailRequest client req.Plan.value) = Except.error cause →
          Diagnostics.HasError out.resp.Diagnostics = true ∧
          (∃ pre, (⟨Severity.error, none, "Error forwarding mail",
            "Unable to forward mail: " ++ pre ++ cause⟩ : Diagnostic) ∈ out.resp.Diagnostics) ∧
          out.resp.State.Raw = resp.State.Raw) ∧
      (req.Plan.getDiags = mailConversionDiags →
        Diagnostics.HasError out.resp.Diagnostics = true ∧
        out.resp.State.Raw = resp.State.Raw ∧ out.sent = []) := by
  by_cases h0 : Diagnostics.HasError (Diagnostics.Append resp.Diagnostics req.Plan.getDiags) = true
  · rw [Create_undecodable lib now r req resp h0]
    refine ⟨_, rfl, Or.inl ⟨h0, rfl⟩, ?_, fun _ => ⟨h0, rfl, rfl⟩⟩
    intro cause h1
    rw [h0] at h1
    exact absurd h1 (by simp)
  · have h1 : Diagnostics.HasError (Diagnostics.Append resp.Diagnostics req.Plan.getDiags)
        = false := by simpa using h0
    have h2 := h1
    rw [HasError_Append, Bool.or_eq_false_iff] at h2
    have hreal : req.Plan.getDiags = mailConversionDiags →
        ∀ out : Outcome, Diagnostics.HasError out.resp.Diagnostics = true ∧
          out.resp.State.Raw = resp.State.Raw ∧ out.sent = [] := by
      intro hm
      have h3 := h2.2
      rw [hm, HasError_mailConversionDiags] at h3
      exact absurd h3 (by simp)
    rw [Create_forward lib now r client req resp hc h2.1 h2.2 hurl]
    cases hb : client.Client.Transport.base (mailRequest client req.Plan.value) with
    | error e =>
      refine ⟨_, rfl, Or.inl ⟨HasError_AddError _ _ _, rfl⟩, ?_, fun hm => hreal hm _⟩
      intro cause _ hcause
      cases hcause
      refine ⟨HasError_AddError _ _ _, ⟨"Post " ++ lib.quoteURL client.Endpoint ++ ": ", ?_⟩, rfl⟩
      have e1 : "Unable to forward mail: " ++ ("Post " ++ lib.quoteURL client.Endpoint ++ ": ") ++ e
          = "Unable to forward mail: " ++ ("Post " ++ lib.quoteURL client.Endpoint ++ ": " ++ e) := by
        simp [String.append_assoc]
      rw [e1]
      exact mem_appendOne _ _
    | ok hr =>
      refine ⟨_, rfl, ?_, ?_, fun hm => hreal hm _⟩
      · by_cases hs : Diagnostics.HasError
            (resp.State.setDiags (createdRecord now req.Plan.value)) = true
        · left
          constructor
          · show Diagnostics.HasError (Diagnostics.Append _ _) = true
            rw [HasError_Append]
            simp [TfState.Set, hs]
          · show (resp.State.Set (createdRecord now req.Plan.value)).1.Raw = _
            simp [TfState.Set, hs]
        · have hs1 : Diagnostics.HasError
              (resp.State.setDiags (createdRecord now req.Plan.value)) = false := by
            simpa using hs
          right
          constructor
          · show Diagnostics.HasError (Diagnostics.Append _ _) = false
            rw [HasError_Append, h1]
            simp [TfState.Set, hs1]
          · show (resp.State.Set (createdRecord now req.Plan.value)).1.Raw = _
            simp [TfState.Set, hs1]
      · intro cause _ hcause
        cases hcause

/-- C7, at an input: the resource as the program runs it, with the default
endpoint and a remote that drops the connection; `Create` reports an error and
stores nothing. -/
theorem Create_failure_reported_witness :
    ∃ out,
      Create sampleLib sampleTime
          { client := some (clientOf defaultEndpoint "env-token"
              (brokenTransport "connection reset by peer")) }
          { Plan := mailData samplePlan } (mailResponse none) = some out ∧
        Diagnostics.HasError out.resp.Diagnostics = true ∧
        out.resp.State.Raw = none := by
  obtain ⟨out, h1, _, _, h2⟩ := Create_failure_reported sampleLib sampleTime
    { client := some (clientOf defaultEndpoint "env-token"
        (brokenTransport "connection reset by peer")) }
    (clientOf defaultEndpoint "env-token" (brokenTransport "connection reset by peer"))
    { Plan := mailData samplePlan } (mailResponse none) rfl (Or.inr rfl) rfl
  exact ⟨out, h1, (h2 rfl).1, (h2 rfl).2.1⟩

/-! ## Claims about `Read` and `Update` -/

/-- C10: with the plan and the prior state as the framework passes them for
the schema of the resource, `Read` and `Update` each leave the stored record,
and the whole state, as it was, and send no request. -/
theorem Read_Update_keep_state (s : QuanianitisMailResourceModel)
    (rreq : ReadRequest) (ureq : UpdateRequest) (resp : Response)
    (hs : resp.State.Raw = some s)
    (hr : rreq.State.getDiags = mailConversionDiags)
    (hu : ureq.Plan.getDiags = mailConversionDiags) :
    (Read rreq resp).resp.State.Raw = some s ∧ (Read rreq resp).sent = [] ∧
      (Update ureq resp).resp.State.Raw = some s ∧ (Update ureq resp).sent = [] := by
  have h0 : Diagnostics.HasError (Diagnostics.Append resp.Diagnostics mailConversionDiags)
      = true := by
    rw [HasError_Append, HasError_mailConversionDiags]
    simp
  refine ⟨?_, ?_, ?_, ?_⟩
  · simp [Read, TfData.Get, hr, h0, hs]
  · simp [Read, TfData.Get, hr, h0]
  · simp [Update, TfData.Get, hu, h0, hs]
  · simp [Update, TfData.Get, hu, h0]

/-- C10, at an input: the sample record stored, the sample plan planned. -/
theorem Read_Update_keep_state_witness :
    (Read { State := mailData sampleRecord } (mailResponse (some sampleRecord))).resp.State.Raw
        = some sampleRecord ∧
      (Read { State := mailData sampleRecord } (mailResponse (some sampleRecord))).sent = [] ∧
      (Update { Plan := mailData samplePlan, State := mailData sampleRecord }
        (mailResponse (some sampleRecord))).resp.State.Raw = some sampleRecord ∧
      (Update { Plan := mailData samplePlan, State := mailData sampleRecord }
        (mailResponse (some sampleRecord))).sent = [] :=
  Read_Update_keep_state sampleRecord { State := mailData sampleRecord }
    { Plan := mailData samplePlan, State := mailData sampleRecord }
    (mailResponse (some sampleRecord)) rfl rfl rfl

/-! ## What the bodies of `Create` and `Update` do with a plan that decodes

The lemmas of this section assume that `Get` and `Set` report no error, which
needs a schema that declares `id`; with the schema the resource declares no
run of the program satisfies them. -/

/-- Past the decoding of the plan, `Create` stores the record for every status
of the response: its status check compares the status with itself. -/
theorem Create_decoded_any_status (lib : NetLib) (now : Time) (r : QuanianitisMailResource)
    (client : Client) (req : CreateRequest) (resp : Response) (status : Int)
    (hc : r.client = some client)
    (hresp : Diagnostics.HasError resp.Diagnostics = false)
    (hget : Diagnostics.HasError req.Plan.getDiags = false)
    (hurl : lib.parseURL client.Endpoint = none)
    (hset : Diagnostics.HasError (resp.State.setDiags (createdRecord now req.Plan.value)) = false)
    (hst : client.Client.Transport.base (mailRequest client req.Plan.value)
      = Except.ok { StatusCode := status }) :
    ∃ out, Create lib now r req resp = some out ∧
      Diagnostics.HasError out.resp.Diagnostics = false ∧
      out.resp.State.Raw = some (createdRecord now req.Plan.value) := by
  rw [Create_forward lib now r client req resp hc hresp hget hurl, hst]
  have hS : resp.State.Set (createdRecord now req.Plan.value)
      = ({ resp.State with Raw := some (createdRecord now req.Plan.value) },
          resp.State.setDiags (createdRecord now req.Plan.value)) := by
    simp [TfState.Set, hset]
  refine ⟨_, rfl, ?_, ?_⟩
  · show Diagnostics.HasError (Diagnostics.Append _ _) = false
    rw [HasError_Append, HasError_Append, hresp, hget, hS]
    exact hset
  · show (resp.State.Set (createdRecord now req.Plan.value)).1.Raw = _
    rw [hS]

/-- Past the decoding of the plan, `Update` stores the plan. -/
theorem Update_decoded_stores_plan (ureq : UpdateRequest) (resp : Response)
    (hresp : Diagnostics.HasError resp.Diagnostics = false)
    (hget : Diagnostics.HasError ureq.Plan.getDiags = false)
    (hset : Diagnostics.HasError (resp.State.setDiags ureq.Plan.value) = false) :
    (Update ureq resp).resp.State.Raw = some ureq.Plan.value := by
  have h0 : Diagnostics.HasError (Diagnostics.Append resp.Diagnostics ureq.Plan.getDiags)
      = false := by
    rw [HasError_Append, hresp]; exact hget
  simp [Update, TfData.Get, TfState.Set, h0, hset]

end Quanianitis
